import Mathlib

/-
Verification of the news_scraper repository: a shallow embedding of
src/scraper.py and src/watchdog.py, followed by theorems about the claims
of the specification.

Conventions used throughout:
- Python strings are Lean String values; machine-level Python semantics
  (truthiness, dict update-or-append, exceptions) are made explicit.
- Fallible Python code is modelled with Except or Option.
- The selenium driver is replaced by explicit page data: what a locator
  would resolve to on the page currently in focus.
-/

/-! ## Python exception kinds raised by the modelled code -/

inductive PyError where
  | jsonDecodeError
  | attributeError
  | typeError
  | keyError
  | noSuchElementException
  | timeoutException
deriving DecidableEq

/-! ## Watchdog (src/watchdog.py)

`TIMEOUT = 300`; `last_log_time` returns the mtime of the scraper log or
`None` when the file is missing; each iteration of the `while True` loop of
`monitor_scraper` sleeps, reads `last_log_time`, and either restarts for
staleness, restarts for unexpected exit, or does nothing. -/

def TIMEOUT : Int := 300

/-- Models watchdog.last_log_time: the mtime of logs/scraper.log (in
seconds) when the file exists, `none` when it does not. -/
def last_log_time (fileExists : Bool) (mtime : Int) : Option Int :=
  if fileExists then some mtime else none

/-- The observable process-control actions one tick of monitor_scraper can
take, in order. -/
inductive TickAction where
  | terminateChild
  | waitChild
  | spawnChild
deriving DecidableEq

/-- Models one iteration of the `while True` loop of
watchdog.monitor_scraper (lines 39-52), as the list of process actions it
performs.  `lastModified` is the result of `last_log_time()`, `now` is
`datetime.now()` in seconds, `childExited` is `scraper_process.poll() is
not None`.  The first branch is
`if last_modified and (datetime.now() - last_modified) > timedelta(seconds=TIMEOUT)`
(a datetime object is always truthy, so `last_modified and e` is `e` unless
`last_modified` is `None`); the second is the `elif` on `poll()`. -/
def log_is_stale (lastModified : Option Int) (now : Int) : Bool :=
  match lastModified with
  | some t => decide (now - t > TIMEOUT)
  | none => false

def monitor_tick (lastModified : Option Int) (now : Int) (childExited : Bool) :
    List TickAction :=
  if log_is_stale lastModified now then
    [TickAction.terminateChild, TickAction.waitChild, TickAction.spawnChild]
  else if childExited then
    [TickAction.spawnChild]
  else
    []

/-! ## Full-page realization loop (scraper.load_full_page)

The loop keeps `last_height`, scrolls, sleeps, re-measures, and breaks
exactly when the new measurement equals the previous one.  The successive
page-height measurements are modelled as a sequence `hs : Nat → Nat`:
`hs 0` is the initial `document.body.scrollHeight` and `hs k` (for k ≥ 1)
is the height measured after the k-th scroll.  Because the Python loop is
`while True` with no other exit, the embedding is fuel-indexed:
`load_full_page hs fuel = some k` means the loop breaks after exactly `k`
scrolls within `fuel` iterations, and `none` means `fuel` iterations did
not make it break. -/

def load_full_page_aux (hs : Nat → Nat) : Nat → Nat → Nat → Option Nat
  | _, _, 0 => none
  | lastHeight, k, fuel + 1 =>
    if hs k = lastHeight then some k
    else load_full_page_aux hs (hs k) (k + 1) fuel

/-- Models scraper.load_full_page (lines 67-77) on the height sequence
`hs`. -/
def load_full_page (hs : Nat → Nat) (fuel : Nat) : Option Nat :=
  load_full_page_aux hs (hs 0) 1 fuel

/-! ### Helper lemmas for load_full_page -/

theorem load_full_page_aux_stops (hs : Nat → Nat) (i : Nat) (hi : 1 ≤ i)
    (heq : hs i = hs (i - 1))
    (hfirst : ∀ j, 1 ≤ j → j < i → hs j ≠ hs (j - 1)) :
    ∀ fuel k, 1 ≤ k → k ≤ i → i - k < fuel →
      load_full_page_aux hs (hs (k - 1)) k fuel = some i := by
  intro fuel
  induction fuel with
  | zero => intro k _ _ hlt; omega
  | succ fuel ih =>
    intro k hk1 hki _
    by_cases hk : k = i
    · subst hk
      simp [load_full_page_aux, heq]
    · have hklt : k < i := lt_of_le_of_ne hki hk
      have hne : hs k ≠ hs (k - 1) := hfirst k hk1 hklt
      show (if hs k = hs (k - 1) then some k
            else load_full_page_aux hs (hs k) (k + 1) fuel) = some i
      rw [if_neg hne]
      exact ih (k + 1) (by omega) (by omega) (by omega)

theorem load_full_page_aux_diverges (hs : Nat → Nat)
    (hne : ∀ i, 1 ≤ i → hs i ≠ hs (i - 1)) :
    ∀ fuel k, 1 ≤ k → load_full_page_aux hs (hs (k - 1)) k fuel = none := by
  intro fuel
  induction fuel with
  | zero => intro k _; rfl
  | succ fuel ih =>
    intro k hk1
    show (if hs k = hs (k - 1) then some k
          else load_full_page_aux hs (hs k) (k + 1) fuel) = none
    rw [if_neg (hne k hk1)]
    exact ih (k + 1) (by omega)

/-! ## Claim theorems about the watchdog and the scroll loop -/

/-- Claim C6: on a supervisor tick whose progress-log mtime is older than
the 300 s staleness threshold, the tick terminates the child, waits for it,
and spawns exactly one new child, and the exited-child respawn branch is
not additionally taken: the tick performs exactly the action sequence
terminate, wait, spawn, hence exactly one spawn. -/
theorem stale_tick_restarts_once (t now : Int) (childExited : Bool)
    (h : now - t > TIMEOUT) :
    monitor_tick (some t) now childExited =
      [TickAction.terminateChild, TickAction.waitChild, TickAction.spawnChild] ∧
    (monitor_tick (some t) now childExited).count TickAction.spawnChild = 1 := by
  constructor
  · simp [monitor_tick, log_is_stale, h]
  · simp [monitor_tick, log_is_stale, h, List.count_cons]

/-- Witness for stale_tick_restarts_once at mtime 0, now 301, with the
child still running. -/
theorem stale_tick_restarts_once_witness :
    (301 : Int) - 0 > TIMEOUT ∧
    (monitor_tick (some 0) 301 false =
      [TickAction.terminateChild, TickAction.waitChild, TickAction.spawnChild] ∧
    (monitor_tick (some 0) 301 false).count TickAction.spawnChild = 1) :=
  ⟨by decide, stale_tick_restarts_once 0 301 false (by decide)⟩

/-- Claim C7: the full-page realization loop stops exactly at the first
consecutive equal pair of height measurements.  Part one: if `hs i` is the
first measurement equal to its predecessor, the loop returns after exactly
`i` scrolls (under any sufficient fuel), performing no further scrolls.
Part two: there is no other stopping condition — on a height sequence with
no consecutive equal pair the loop never breaks, for any amount of fuel. -/
theorem load_full_page_fixpoint :
    (∀ (hs : Nat → Nat) (i : Nat), 1 ≤ i → hs i = hs (i - 1) →
      (∀ j, 1 ≤ j → j < i → hs j ≠ hs (j - 1)) →
      ∀ fuel, i ≤ fuel → load_full_page hs fuel = some i) ∧
    (∀ hs : Nat → Nat, (∀ i, 1 ≤ i → hs i ≠ hs (i - 1)) →
      ∀ fuel, load_full_page hs fuel = none) := by
  constructor
  · intro hs i hi heq hfirst fuel hfuel
    have h0 : hs 0 = hs (1 - 1) := rfl
    rw [load_full_page, h0]
    exact load_full_page_aux_stops hs i hi heq hfirst fuel 1 (by omega) hi (by omega)
  · intro hs hne fuel
    have h0 : hs 0 = hs (1 - 1) := rfl
    rw [load_full_page, h0]
    exact load_full_page_aux_diverges hs hne fuel 1 (by omega)

/-- Witness for load_full_page_fixpoint: on the constant height sequence
the loop breaks after the first scroll, and on the strictly increasing
sequence it never breaks. -/
theorem load_full_page_fixpoint_witness :
    load_full_page (fun _ => 5) 1 = some 1 ∧
    load_full_page (fun n => n) 3 = none := by
  constructor
  · exact load_full_page_fixpoint.1 (fun _ => 5) 1 (by decide) rfl
      (fun j hj hlt => absurd (Nat.lt_of_le_of_lt hj hlt) (Nat.lt_irrefl 1))
      1 (by decide)
  · exact load_full_page_fixpoint.2 (fun n => n)
      (fun i hi => by show i ≠ i - 1; omega) 3

/-- Claim C10: when the scraper log file does not exist, last_log_time
returns none, and the staleness branch of the supervisor tick is never
taken: the tick only respawns when the child has exited on its own. -/
theorem missing_log_no_stale_restart (m now : Int) (childExited : Bool) :
    last_log_time false m = none ∧
    monitor_tick (last_log_time false m) now childExited =
      (if childExited then [TickAction.spawnChild] else []) := by
  constructor
  · rfl
  · simp [last_log_time, monitor_tick, log_is_stale]

/-! ## hash_url (scraper.hash_url)

`hashlib.md5(url.encode()).hexdigest()`: the MD5 digest of the UTF-8
encoding of the URL, rendered as 32 lowercase hex characters.  MD5 is
implemented below over Nat with explicit reduction mod 2^32. -/

/-- UTF-8 encoding of one character, as Python str.encode() produces. -/
def utf8Bytes (c : Char) : List Nat :=
  let n := c.toNat
  if n < 128 then [n]
  else if n < 2048 then [192 + n / 64, 128 + n % 64]
  else if n < 65536 then [224 + n / 4096, 128 + (n / 64) % 64, 128 + n % 64]
  else [240 + n / 262144, 128 + (n / 4096) % 64, 128 + (n / 64) % 64, 128 + n % 64]

/-- UTF-8 byte sequence of a string (url.encode() in the source). -/
def strBytes (s : String) : List Nat :=
  s.toList.flatMap utf8Bytes

def md5K : List Nat :=
  [0xd76aa478, 0xe8c7b756, 0x242070db, 0xc1bdceee,
   0xf57c0faf, 0x4787c62a, 0xa8304613, 0xfd469501,
   0x698098d8, 0x8b44f7af, 0xffff5bb1, 0x895cd7be,
   0x6b901122, 0xfd987193, 0xa679438e, 0x49b40821,
   0xf61e2562, 0xc040b340, 0x265e5a51, 0xe9b6c7aa,
   0xd62f105d, 0x02441453, 0xd8a1e681, 0xe7d3fbc8,
   0x21e1cde6, 0xc33707d6, 0xf4d50d87, 0x455a14ed,
   0xa9e3e905, 0xfcefa3f8, 0x676f02d9, 0x8d2a4c8a,
   0xfffa3942, 0x8771f681, 0x6d9d6122, 0xfde5380c,
   0xa4beea44, 0x4bdecfa9, 0xf6bb4b60, 0xbebfbc70,
   0x289b7ec6, 0xeaa127fa, 0xd4ef3085, 0x04881d05,
   0xd9d4d039, 0xe6db99e5, 0x1fa27cf8, 0xc4ac5665,
   0xf4292244, 0x432aff97, 0xab9423a7, 0xfc93a039,
   0x655b59c3, 0x8f0ccc92, 0xffeff47d, 0x85845dd1,
   0x6fa87e4f, 0xfe2ce6e0, 0xa3014314, 0x4e0811a1,
   0xf7537e82, 0xbd3af235, 0x2ad7d2bb, 0xeb86d391]

def md5S : List Nat :=
  [7, 12, 17, 22, 7, 12, 17, 22, 7, 12, 17, 22, 7, 12, 17, 22,
   5, 9, 14, 20, 5, 9, 14, 20, 5, 9, 14, 20, 5, 9, 14, 20,
   4, 11, 16, 23, 4, 11, 16, 23, 4, 11, 16, 23, 4, 11, 16, 23,
   6, 10, 15, 21, 6, 10, 15, 21, 6, 10, 15, 21, 6, 10, 15, 21]

def mask32 : Nat := 4294967296

def add32 (a b : Nat) : Nat := (a + b) % mask32

def rotl32 (x s : Nat) : Nat := ((x <<< s) % mask32) + (x >>> (32 - s))

/-- MD5 padding: append 0x80, zero-pad to 56 mod 64, then the original
length in bits as 8 little-endian bytes. -/
def md5Pad (msg : List Nat) : List Nat :=
  let bitLen := (msg.length * 8) % (2 ^ 64)
  let zeros := (119 - msg.length % 64) % 64
  msg ++ [128] ++ List.replicate zeros 0 ++
    [bitLen % 256, (bitLen >>> 8) % 256, (bitLen >>> 16) % 256,
     (bitLen >>> 24) % 256, (bitLen >>> 32) % 256, (bitLen >>> 40) % 256,
     (bitLen >>> 48) % 256, (bitLen >>> 56) % 256]

/-- Group a padded byte list into 32-bit little-endian words. -/
def bytesToWords : List Nat → List Nat
  | b0 :: b1 :: b2 :: b3 :: rest =>
    (b0 + 256 * b1 + 65536 * b2 + 16777216 * b3) :: bytesToWords rest
  | _ => []

/-- Group a word list into 16-word blocks. -/
def wordsToBlocks : List Nat → List (List Nat)
  | w0 :: w1 :: w2 :: w3 :: w4 :: w5 :: w6 :: w7 ::
    w8 :: w9 :: w10 :: w11 :: w12 :: w13 :: w14 :: w15 :: rest =>
    [w0, w1, w2, w3, w4, w5, w6, w7, w8, w9, w10, w11, w12, w13, w14, w15] ::
      wordsToBlocks rest
  | _ => []

/-- One of the 64 MD5 rounds on state (a, b, c, d) with block words m. -/
def md5Round (m : List Nat) (st : Nat × Nat × Nat × Nat) (i : Nat) :
    Nat × Nat × Nat × Nat :=
  let a := st.1
  let b := st.2.1
  let c := st.2.2.1
  let d := st.2.2.2
  let f :=
    if i < 16 then (b &&& c) ||| ((b ^^^ 4294967295) &&& d)
    else if i < 32 then (d &&& b) ||| ((d ^^^ 4294967295) &&& c)
    else if i < 48 then b ^^^ c ^^^ d
    else c ^^^ (b ||| (d ^^^ 4294967295))
  let g :=
    if i < 16 then i
    else if i < 32 then (5 * i + 1) % 16
    else if i < 48 then (3 * i + 5) % 16
    else (7 * i) % 16
  let tmp := (a + f + md5K.getD i 0 + m.getD g 0) % mask32
  (d, add32 b (rotl32 tmp (md5S.getD i 0)), b, c)

/-- Process one 16-word block, updating the running MD5 state. -/
def md5Block (st : Nat × Nat × Nat × Nat) (m : List Nat) :
    Nat × Nat × Nat × Nat :=
  let r := (List.range 64).foldl (md5Round m) st
  (add32 st.1 r.1, add32 st.2.1 r.2.1, add32 st.2.2.1 r.2.2.1,
   add32 st.2.2.2 r.2.2.2)

def hexDigitChar (n : Nat) : Char :=
  if n < 10 then Char.ofNat (48 + n) else Char.ofNat (87 + n)

def byteToHex (b : Nat) : List Char :=
  [hexDigitChar (b / 16), hexDigitChar (b % 16)]

def wordToHexLE (w : Nat) : List Char :=
  byteToHex (w % 256) ++ byteToHex ((w >>> 8) % 256) ++
    byteToHex ((w >>> 16) % 256) ++ byteToHex ((w >>> 24) % 256)

/-- MD5 hexdigest of a byte sequence. -/
def md5Hex (msg : List Nat) : String :=
  let blocks := wordsToBlocks (bytesToWords (md5Pad msg))
  let st := blocks.foldl md5Block (1732584193, 4023233417, 2562383102, 271733878)
  String.mk (wordToHexLE st.1 ++ wordToHexLE st.2.1 ++
    wordToHexLE st.2.2.1 ++ wordToHexLE st.2.2.2)

/-- Models scraper.hash_url: `hashlib.md5(url.encode()).hexdigest()`. -/
def hash_url (url : String) : String :=
  md5Hex (strBytes url)

set_option maxRecDepth 100000 in
example : hash_url "" = "d41d8cd98f00b204e9800998ecf8427e" := by decide
set_option maxRecDepth 100000 in
example : hash_url "abc" = "900150983cd24fb0d6963f7d28e17f72" := by decide

/-! ## String helpers shared by the extraction pipeline -/

/-- Whitespace stripped by Python str.strip() (the ASCII whitespace set). -/
def pyIsSpace (c : Char) : Bool :=
  c = ' ' || c = '\t' || c = '\n' || c = '\x0d' || c = '\x0b' || c = '\x0c'

/-- Python str.strip(): remove leading and trailing whitespace. -/
def pyStrip (s : String) : String :=
  ((s.toList.dropWhile pyIsSpace).reverse.dropWhile pyIsSpace).reverse.asString

/-- Python `needle in hay` on strings: substring containment. -/
def containsSub (hay needle : List Char) : Bool :=
  hay.tails.any (fun t => needle.isPrefixOf t)

/-! ## clean_title (scraper.clean_title)

`re.split` on the class of `-`, `|`, `:`, then `[0].strip()`: the part of the title before the
first `-`, `|` or `:` (the whole title when none occurs), stripped. -/

def clean_title (title : String) : String :=
  pyStrip (title.toList.takeWhile
    (fun c => ¬ (c = '-' ∨ c = '|' ∨ c = ':'))).asString

/-! ## clean_unwanted_text (scraper.clean_unwanted_text)

For each unwanted pattern, `re.sub` removes the pattern from the content
(case-insensitive) and the result is stripped.  Five patterns are literal strings and one
(`SUBSCRIBE FOR \$[0-9]+\/WEEK`) has a one-or-more-digits hole, so a
pattern is modelled as a sequence of items, each a literal character or a
maximal nonempty digit run. -/

inductive PatItem where
  | lit (c : Char)
  | digitRun

/-- Try to match a pattern at the head of `cs` (case-insensitive, as under
re.IGNORECASE); on success return the remainder of `cs`.  The digit run is
matched greedily, which agrees with `[0-9]+` here because the item after
the run in the one pattern using it is the non-digit `/`. -/
def matchItems : List PatItem → List Char → Option (List Char)
  | [], cs => some cs
  | PatItem.lit _ :: _, [] => none
  | PatItem.lit c :: ps, x :: cs =>
    if x.toLower = c.toLower then matchItems ps cs else none
  | PatItem.digitRun :: ps, cs =>
    let run := cs.takeWhile Char.isDigit
    if run.isEmpty then none else matchItems ps (cs.drop run.length)

/-- Models re.sub with an empty replacement: scan left to right; at each position either
remove a match and resume after it, or keep one character and move on.  The
first fuel argument only bounds the recursion: each step consumes at least
one character of `cs` (the pattern `p0 :: ps` never matches the empty
string), so with `cs` itself as fuel the fuel never runs out. -/
def subAllGo (p0 : PatItem) (ps : List PatItem) : List Char → List Char → List Char
  | _, [] => []
  | [], cs => cs
  | _ :: fuelRest, x :: cs =>
    match matchItems (p0 :: ps) (x :: cs) with
    | some rest => subAllGo p0 ps fuelRest rest
    | none => x :: subAllGo p0 ps fuelRest cs

def subAll : List PatItem → List Char → List Char
  | [], cs => cs
  | p0 :: ps, cs => subAllGo p0 ps cs cs

def litPat (s : String) : List PatItem :=
  s.toList.map PatItem.lit

/-- The unwanted-text patterns of scraper.clean_unwanted_text, in source
order. -/
def unwantedPatterns : List (List PatItem) :=
  [litPat "SKIP TO CONTENT",
   litPat "SKIP TO SITE INDEX",
   litPat "SECTION NAVIGATION",
   litPat "SUBSCRIBE FOR $" ++ [PatItem.digitRun] ++ litPat "/WEEK",
   litPat "LOG IN",
   litPat "SEARCH"]

/-- Models scraper.clean_unwanted_text: each pattern is removed in turn
(case-insensitively) and the content stripped after each removal. -/
def clean_unwanted_text (content : String) : String :=
  unwantedPatterns.foldl
    (fun acc p => pyStrip (subAll p acc.toList).asString) content

example : clean_unwanted_text "LOG IN Hello SEARCH" = "Hello" := by decide
example : clean_unwanted_text "subscribe for $5/week News" = "News" := by decide

/-! ## Publish-date resolution (scraper.scrape_articles lines 202-208)

`date_element.get_attribute("datetime") or date_element.text` when a
`//time` element exists; otherwise
`datetime.now().strftime("%Y-%m-%d %H:%M:%S")` — the local current time
with a space separator and no timezone designator. -/

structure TimeElement where
  datetimeAttr : Option String
  text : String

structure LocalTime where
  year : Nat
  month : Nat
  day : Nat
  hour : Nat
  minute : Nat
  second : Nat

def pad2 (n : Nat) : String :=
  if n < 10 then "0" ++ toString n else toString n

def pad4 (n : Nat) : String :=
  if n < 10 then "000" ++ toString n
  else if n < 100 then "00" ++ toString n
  else if n < 1000 then "0" ++ toString n
  else toString n

/-- strftime("%Y-%m-%d %H:%M:%S") on a broken-down local time. -/
def strftime_ymd_hms (t : LocalTime) : String :=
  pad4 t.year ++ "-" ++ pad2 t.month ++ "-" ++ pad2 t.day ++ " " ++
    pad2 t.hour ++ ":" ++ pad2 t.minute ++ ":" ++ pad2 t.second

/-- Python `a or b` where `a` is `get_attribute`s result (`None` or a
string): an empty string is falsy, so it also falls through to `b`. -/
def py_or_str (a : Option String) (b : String) : String :=
  match a with
  | some s => if s = "" then b else s
  | none => b

/-- Models the publish-date resolution of scrape_articles: prefer the
datetime attribute of the time element, fall back to its text, and when no
time element exists (`NoSuchElementException`) use the formatted current
time. -/
def resolve_publish_date (timeEl : Option TimeElement) (now : LocalTime) : String :=
  match timeEl with
  | some el => py_or_str el.datetimeAttr el.text
  | none => strftime_ymd_hms now

/-- Modelled from the spec: the claim calls for an ISO-8601 UTC timestamp,
which is not computed anywhere in src; per the spec wording a string in
ISO-8601 UTC form joins date and time with the designator T and carries the
UTC marker Z (or a +00:00 offset). -/
def is_iso8601_utc (s : String) : Bool :=
  s.toList.contains 'T' && (s.toList.contains 'Z' || containsSub s.toList "+00:00".toList)

/-! ## The typed article store (scraped_articles.json)

Every record save_article writes is a JSON object with the seven fields
below, keyed in the backing file by the article id.  A Python dict is
modelled as an association list with dict update semantics: assignment
replaces the value at an existing key in place, otherwise appends. -/

structure ArticleRecord where
  url : String
  title : String
  description : String
  content : String
  image_url : String
  publish_date : String
  author : String
deriving DecidableEq

abbrev Store : Type := List (String × ArticleRecord)

/-- Python `d[k] = v` on an insertion-ordered dict: replace in place when
the key is present, append otherwise. -/
def dictSet : Store → String → ArticleRecord → Store
  | [], k, v => [(k, v)]
  | e :: rest, k, v =>
    if e.1 = k then (k, v) :: rest else e :: dictSet rest k v

/-- Python `d.get(k)` on an insertion-ordered dict. -/
def dictGet : Store → String → Option ArticleRecord
  | [], _ => none
  | e :: rest, k => if e.1 = k then some e.2 else dictGet rest k

/-- Python `k in d`. -/
def hasKey : Store → String → Bool
  | [], _ => false
  | e :: rest, k => e.1 = k || hasKey rest k

/-- Models scraper.save_article (lines 260-288) on the store state held in
the backing file: build the record dict — whose "url" field is set to
`article_id`, the value the caller passed (scrape_articles passes
`hash_url(link_url)`, not the URL) — store it under `article_id`, and write
the file back. -/
def save_article (store : Store) (article_id title description image_url
    full_content publish_date author : String) : Store :=
  dictSet store article_id
    { url := article_id
      title := title
      description := description
      content := full_content
      image_url := image_url
      publish_date := publish_date
      author := author }

/-- The URL set load_existing_data derives from a store of well-formed
article records: `{article["url"] for article in existing_data.values() if
"url" in article}` — every record written by save_article has a "url"
field, so this is the multiset of the url fields of the records (set membership
is what the caller uses, so duplicates are immaterial). -/
def existing_urls_of (store : Store) : List String :=
  store.map (fun e => e.2.url)

/-! ## Content extraction (scraper.extract_main_content) -/

/-- The data of the article page in the focused tab: what each locator of
scrape_articles would resolve to.  `mainContent` is the text of the first
`//article | //div[contains(@class, ...)]` element when one appears
within the wait timeout; `bodyText` is the text of the `body` element;
`firstImageSrc` is the src of the first `//img`, if any image exists;
`timeElement` is the first `//time` element, if any; `authorText` is the
text of the first author-like element, if any; `now` is the local
wall-clock time during extraction. -/
structure Page where
  title : String
  mainContent : Option String
  bodyText : String
  firstImageSrc : Option String
  timeElement : Option TimeElement
  authorText : Option String
  now : LocalTime

/-- Models scraper.extract_main_content (lines 85-99).
`WebDriverWait(...).until(presence_of_element_located(...))` returns the
element when it appears within the timeout and raises TimeoutException
otherwise (`until` swallows the locator internal NoSuchElementException
and converts it into TimeoutException).  The handler of the function
catches only NoSuchElementException, so on a timeout the body-text
fallback is not reached and the exception propagates to the caller.
The unwanted-text scrub is applied to whichever branch produced the
content. -/
def extract_main_content (pg : Page) : Except PyError String :=
  let attempt : Except PyError String :=
    match pg.mainContent with
    | some t => Except.ok t
    | none => Except.error PyError.timeoutException
  match attempt with
  | Except.ok t => Except.ok (clean_unwanted_text t)
  | Except.error PyError.noSuchElementException =>
    Except.ok (clean_unwanted_text pg.bodyText)
  | Except.error e => Except.error e

/-! ## The candidate loop of scraper.scrape_articles (lines 161-235) -/

/-- One candidate listing entry: the href its anchor resolves to, and the
article page the new tab would show.  `nav = none` models any exception
raised while processing this candidate after the duplicate check (a
navigation error, an extraction fault such as the TimeoutException above
surfacing, a closed-session error): the outer `except` logs it and moves
on.  A fault during link resolution, before the duplicate check, has the
same store effect. -/
structure Candidate where
  url : String
  nav : Option Page

/-- The body text the loop would persist for a candidate: `none` when the
candidate faults, extraction raises, or the scrubbed content is empty. -/
def written_content (c : Candidate) : Option String :=
  match c.nav with
  | none => none
  | some pg =>
    match extract_main_content pg with
    | Except.error _ => none
    | Except.ok full_content =>
      if full_content = "" then none else some full_content

/-- Models one iteration of the candidate loop of scrape_articles,
restricted to its effect on the persisted store and on the in-run URL set
`existingUrls`: skip when the href is already in the set; otherwise open
the page, extract, discard on empty content, and on success call
save_article with `hash_url(link_url)` and add the raw URL to the set.  Any
exception leaves both unchanged (the outer handler only logs). -/
def process_candidate (store : Store) (existingUrls : List String)
    (c : Candidate) : Store × List String :=
  if c.url ∈ existingUrls then (store, existingUrls)
  else
    match c.nav with
    | none => (store, existingUrls)
    | some pg =>
      match extract_main_content pg with
      | Except.error _ => (store, existingUrls)
      | Except.ok full_content =>
        if full_content = "" then (store, existingUrls)
        else
          (save_article store (hash_url c.url) (clean_title pg.title) ""
            (pg.firstImageSrc.getD "") full_content
            (resolve_publish_date pg.timeElement pg.now)
            (pg.authorText.getD "Unknown"),
           existingUrls ++ [c.url])

/-- The candidate loop over a whole listing, from a given store and URL
set. -/
def fold_run (cands : List Candidate) (store : Store) (urls : List String) :
    Store × List String :=
  cands.foldl (fun su c => process_candidate su.1 su.2 c) (store, urls)

/-- Models one crawl pass of scraper.scrape_articles over the candidates of
the listing: load the existing store and its URL set, then run the
candidate loop; the resulting store state is what the backing file holds
afterwards. -/
def scrape_articles (store : Store) (cands : List Candidate) : Store :=
  (fold_run cands store (existing_urls_of store)).1

/-- The store holds no record with empty body text. -/
def noEmptyContent (store : Store) : Bool :=
  store.all (fun e => ¬ e.2.content = "")

/-! ## Dict and store lemmas -/

theorem dictGet_dictSet_self (s : Store) (k : String) (v : ArticleRecord) :
    dictGet (dictSet s k v) k = some v := by
  induction s with
  | nil => simp [dictSet, dictGet]
  | cons e rest ih =>
    by_cases h : e.1 = k
    · simp [dictSet, h, dictGet]
    · simp [dictSet, h, dictGet, ih]

theorem dictGet_dictSet_ne (s : Store) (k : String) (v : ArticleRecord)
    (q : String) (hq : q ≠ k) :
    dictGet (dictSet s k v) q = dictGet s q := by
  have hkq : ¬ k = q := fun h => hq h.symm
  induction s with
  | nil => simp [dictSet, dictGet, hkq]
  | cons e rest ih =>
    by_cases h : e.1 = k
    · have heq : ¬ e.1 = q := by rw [h]; exact hkq
      simp [dictSet, h, dictGet, hkq, heq]
    · simp only [dictSet, if_neg h]
      by_cases hq2 : e.1 = q
      · simp [dictGet, hq2]
      · simp [dictGet, hq2, ih]

theorem hasKey_dictSet_self (s : Store) (k : String) (v : ArticleRecord) :
    hasKey (dictSet s k v) k = true := by
  induction s with
  | nil => simp [dictSet, hasKey]
  | cons e rest ih =>
    by_cases h : e.1 = k
    · simp [dictSet, h, hasKey]
    · simp [dictSet, h, hasKey, ih]

theorem hasKey_dictSet_mono (s : Store) (k : String) (v : ArticleRecord)
    (q : String) (hq : hasKey s q = true) :
    hasKey (dictSet s k v) q = true := by
  induction s with
  | nil => simp [hasKey] at hq
  | cons e rest ih =>
    by_cases h : e.1 = k
    · simp only [hasKey, Bool.or_eq_true, decide_eq_true_eq] at hq
      simp only [dictSet, if_pos h, hasKey, Bool.or_eq_true, decide_eq_true_eq]
      rcases hq with hq | hq
      · left
        rw [← h]
        exact hq
      · right
        exact hq
    · simp only [hasKey, Bool.or_eq_true] at hq
      simp only [dictSet, if_neg h, hasKey, Bool.or_eq_true]
      rcases hq with hq | hq
      · left
        exact hq
      · right
        exact ih hq

theorem length_dictSet_of_hasKey (s : Store) (k : String) (v : ArticleRecord)
    (h : hasKey s k = true) :
    (dictSet s k v).length = s.length := by
  induction s with
  | nil => simp [hasKey] at h
  | cons e rest ih =>
    by_cases he : e.1 = k
    · simp [dictSet, he]
    · simp only [hasKey, Bool.or_eq_true, decide_eq_true_eq] at h
      rcases h with h | h
      · exact absurd h he
      · simp [dictSet, he, ih h]

theorem noEmptyContent_dictSet (s : Store) (k : String) (v : ArticleRecord)
    (hs : noEmptyContent s = true) (hv : ¬ v.content = "") :
    noEmptyContent (dictSet s k v) = true := by
  induction s with
  | nil => simp [dictSet, noEmptyContent, hv]
  | cons e rest ih =>
    simp only [noEmptyContent, List.all_cons, Bool.and_eq_true] at hs
    by_cases h : e.1 = k
    · simp only [dictSet, if_pos h, noEmptyContent, List.all_cons, Bool.and_eq_true]
      exact ⟨by simpa using hv, hs.2⟩
    · simp only [dictSet, if_neg h, noEmptyContent, List.all_cons, Bool.and_eq_true]
      exact ⟨hs.1, ih hs.2⟩

/-! ## Lemmas about one iteration of the candidate loop -/

theorem process_candidate_skip (s : Store) (u : List String) (c : Candidate)
    (h : c.url ∈ u) : process_candidate s u c = (s, u) := by
  simp [process_candidate, h]

theorem written_content_nonempty (c : Candidate) (t : String)
    (h : written_content c = some t) : ¬ t = "" := by
  unfold written_content at h
  cases hnav : c.nav with
  | none =>
    simp only [hnav] at h
    exact Option.noConfusion h
  | some pg =>
    simp only [hnav] at h
    cases hex : extract_main_content pg with
    | error e =>
      simp only [hex] at h
      exact Option.noConfusion h
    | ok tc =>
      simp only [hex] at h
      by_cases ht : tc = ""
      · simp only [if_pos ht] at h
        exact Option.noConfusion h
      · simp only [if_neg ht] at h
        rw [← Option.some_inj.mp h]
        exact ht

theorem process_candidate_no_write (s : Store) (u : List String)
    (c : Candidate) (h : written_content c = none) :
    process_candidate s u c = (s, u) := by
  by_cases hu : c.url ∈ u
  · exact process_candidate_skip s u c hu
  · unfold written_content at h
    unfold process_candidate
    rw [if_neg hu]
    cases hnav : c.nav with
    | none => simp only [hnav]
    | some pg =>
      simp only [hnav] at h ⊢
      cases hex : extract_main_content pg with
      | error e => simp only [hex]
      | ok t =>
        simp only [hex] at h ⊢
        by_cases ht : t = ""
        · simp only [if_pos ht]
        · simp only [if_neg ht] at h
          exact Option.noConfusion h

theorem process_candidate_write (s : Store) (u : List String) (c : Candidate)
    (hu : c.url ∉ u) (t : String) (h : written_content c = some t) :
    ∃ rec : ArticleRecord, rec.content = t ∧
      process_candidate s u c = (dictSet s (hash_url c.url) rec, u ++ [c.url]) := by
  unfold written_content at h
  unfold process_candidate
  rw [if_neg hu]
  cases hnav : c.nav with
  | none =>
    simp only [hnav] at h
    exact Option.noConfusion h
  | some pg =>
    simp only [hnav] at h ⊢
    cases hex : extract_main_content pg with
    | error e =>
      simp only [hex] at h
      exact Option.noConfusion h
    | ok tc =>
      simp only [hex] at h ⊢
      by_cases ht : tc = ""
      · simp only [if_pos ht] at h
        exact Option.noConfusion h
      · simp only [if_neg ht] at h ⊢
        refine ⟨{ url := hash_url c.url, title := clean_title pg.title,
                  description := "", content := tc,
                  image_url := pg.firstImageSrc.getD "",
                  publish_date := resolve_publish_date pg.timeElement pg.now,
                  author := pg.authorText.getD "Unknown" }, ?_, ?_⟩
        · show tc = t
          exact Option.some_inj.mp h
        · simp [save_article]

/-- The store effect of one iteration: either unchanged, or a dict write of
a non-empty-content record at the hash of the candidate URL, the latter
only for a candidate with extractable non-empty content. -/
theorem process_candidate_store_cases (s : Store) (u : List String)
    (c : Candidate) :
    (process_candidate s u c).1 = s ∨
    ∃ rec : ArticleRecord, ¬ rec.content = "" ∧ written_content c ≠ none ∧
      (process_candidate s u c).1 = dictSet s (hash_url c.url) rec := by
  by_cases hu : c.url ∈ u
  · left
    rw [process_candidate_skip s u c hu]
  · cases hw : written_content c with
    | none =>
      left
      rw [process_candidate_no_write s u c hw]
    | some t =>
      right
      obtain ⟨rec, hrec, heq⟩ := process_candidate_write s u c hu t hw
      refine ⟨rec, ?_, ?_, ?_⟩
      · rw [hrec]
        exact written_content_nonempty c t hw
      · exact fun hnone => Option.noConfusion hnone
      · rw [heq]

theorem hasKey_process_candidate (s : Store) (u : List String) (c : Candidate)
    (k : String) (h : hasKey s k = true) :
    hasKey (process_candidate s u c).1 k = true := by
  rcases process_candidate_store_cases s u c with hc | ⟨rec, _, _, hc⟩
  · rw [hc]
    exact h
  · rw [hc]
    exact hasKey_dictSet_mono s (hash_url c.url) rec k h

theorem fold_run_cons (c : Candidate) (cands : List Candidate) (s : Store)
    (u : List String) :
    fold_run (c :: cands) s u =
      fold_run cands (process_candidate s u c).1 (process_candidate s u c).2 := by
  simp [fold_run]

theorem hasKey_fold_run (cands : List Candidate) :
    ∀ (s : Store) (u : List String) (k : String), hasKey s k = true →
      hasKey (fold_run cands s u).1 k = true := by
  induction cands with
  | nil =>
    intro s u k h
    simpa [fold_run] using h
  | cons c rest ih =>
    intro s u k h
    rw [fold_run_cons]
    exact ih _ _ k (hasKey_process_candidate s u c k h)

/-- Along a run that starts with every URL of the skip set already stored
under its hash, the candidate loop keeps that invariant and ends with the
hash of every content-bearing candidate present as a store key. -/
theorem fold_run_good_key (cands : List Candidate) :
    ∀ (s : Store) (u : List String),
      (∀ x ∈ u, hasKey s (hash_url x) = true) →
      (∀ x ∈ (fold_run cands s u).2, hasKey (fold_run cands s u).1 (hash_url x) = true) ∧
      (∀ c ∈ cands, written_content c ≠ none →
        hasKey (fold_run cands s u).1 (hash_url c.url) = true) := by
  induction cands with
  | nil =>
    intro s u hinv
    refine ⟨?_, ?_⟩
    · intro x hx
      exact hinv x hx
    · intro c hc
      exact absurd hc (List.not_mem_nil c)
  | cons c rest ih =>
    intro s u hinv
    have hstep : ∀ x ∈ (process_candidate s u c).2,
        hasKey (process_candidate s u c).1 (hash_url x) = true := by
      by_cases hu : c.url ∈ u
      · rw [process_candidate_skip s u c hu]
        exact hinv
      · cases hw : written_content c with
        | none =>
          rw [process_candidate_no_write s u c hw]
          exact hinv
        | some t =>
          obtain ⟨rec, _, heq⟩ := process_candidate_write s u c hu t hw
          rw [heq]
          intro x hx
          rcases List.mem_append.mp hx with hx | hx
          · exact hasKey_dictSet_mono s (hash_url c.url) rec (hash_url x) (hinv x hx)
          · rcases List.mem_singleton.mp hx with rfl
            exact hasKey_dictSet_self s (hash_url c.url) rec
    have hckey : written_content c ≠ none →
        hasKey (process_candidate s u c).1 (hash_url c.url) = true := by
      intro hwc
      by_cases hu : c.url ∈ u
      · rw [process_candidate_skip s u c hu]
        exact hinv c.url hu
      · cases hw : written_content c with
        | none => exact absurd hw hwc
        | some t =>
          obtain ⟨rec, _, heq⟩ := process_candidate_write s u c hu t hw
          rw [heq]
          exact hasKey_dictSet_self s (hash_url c.url) rec
    obtain ⟨ih1, ih2⟩ := ih (process_candidate s u c).1 (process_candidate s u c).2 hstep
    refine ⟨?_, ?_⟩
    · rw [fold_run_cons]
      exact ih1
    · intro c2 hc2 hwc2
      rw [fold_run_cons]
      rcases List.mem_cons.mp hc2 with rfl | hc2
      · exact hasKey_fold_run rest _ _ (hash_url c2.url) (hckey hwc2)
      · exact ih2 c2 hc2 hwc2

/-- When the hash of every content-bearing candidate is already a key of
the store, the run only overwrites and the store size is unchanged. -/
theorem fold_run_length (cands : List Candidate) :
    ∀ (s : Store) (u : List String),
      (∀ c ∈ cands, written_content c ≠ none → hasKey s (hash_url c.url) = true) →
      (fold_run cands s u).1.length = s.length := by
  induction cands with
  | nil =>
    intro s u _
    simp [fold_run]
  | cons c rest ih =>
    intro s u hkeys
    rw [fold_run_cons]
    have hlen : (process_candidate s u c).1.length = s.length := by
      rcases process_candidate_store_cases s u c with hc | ⟨rec, _, hwc, hc⟩
      · rw [hc]
      · rw [hc]
        exact length_dictSet_of_hasKey s (hash_url c.url) rec
          (hkeys c (List.mem_cons_self c rest) hwc)
    have hrest : ∀ c2 ∈ rest, written_content c2 ≠ none →
        hasKey (process_candidate s u c).1 (hash_url c2.url) = true := by
      intro c2 hc2 hwc2
      exact hasKey_process_candidate s u c (hash_url c2.url)
        (hkeys c2 (List.mem_cons_of_mem c hc2) hwc2)
    rw [ih (process_candidate s u c).1 (process_candidate s u c).2 hrest]
    exact hlen

/-- Claim C3: running the extraction-and-store cycle twice on the same
listing (the same candidates, hence the same per-candidate extraction
outcomes, with the second run starting on the store the first run
produced) leaves the number of stored entries unchanged, for every
candidate list.  The experiment starts from the empty store, as in the
idempotence test of the spec. -/
theorem double_run_preserves_size (cands : List Candidate) :
    (scrape_articles (scrape_articles [] cands) cands).length =
      (scrape_articles [] cands).length := by
  unfold scrape_articles
  apply fold_run_length
  intro c hc hwc
  have hgood := (fold_run_good_key cands [] (existing_urls_of [])
    (by intro x hx; simp [existing_urls_of] at hx)).2
  exact hgood c hc hwc

/-- Claim C9: save_article is a frame-preserving update.  After saving a
record under the hash of its URL, the store maps that hash to the new
record (whose url field holds the hash, the value the caller passes as
article_id), and lookups at every other key return exactly what they
returned before. -/
theorem save_article_frame (s : Store) (url title description image_url
    full_content publish_date author : String) (k : String) :
    dictGet (save_article s (hash_url url) title description image_url
        full_content publish_date author) k =
      (if k = hash_url url then
        some { url := hash_url url, title := title, description := description,
               content := full_content, image_url := image_url,
               publish_date := publish_date, author := author }
      else dictGet s k) := by
  unfold save_article
  by_cases h : k = hash_url url
  · rw [if_pos h, h]
    exact dictGet_dictSet_self s (hash_url url) _
  · rw [if_neg h]
    exact dictGet_dictSet_ne s (hash_url url) _ k h

/-! ## Claim C4 -/

theorem noEmptyContent_fold_run (cands : List Candidate) :
    ∀ (s : Store) (u : List String), noEmptyContent s = true →
      noEmptyContent (fold_run cands s u).1 = true := by
  induction cands with
  | nil =>
    intro s u h
    simpa [fold_run] using h
  | cons c rest ih =>
    intro s u h
    rw [fold_run_cons]
    apply ih
    rcases process_candidate_store_cases s u c with hc | ⟨rec, hrec, _, hc⟩
    · rw [hc]
      exact h
    · rw [hc]
      exact noEmptyContent_dictSet s (hash_url c.url) rec h hrec

/-- Claim C4: the no-empty-body-text store invariant is preserved by every
crawl pass: an extraction whose scrubbed content is empty is discarded
before save_article is reached, and every record save_article writes
during the pass carries non-empty content, so a store with no
empty-content entry still has none after scrape_articles runs over any
candidate list. -/
theorem store_no_empty_content (s : Store) (cands : List Candidate)
    (h : noEmptyContent s = true) :
    noEmptyContent (scrape_articles s cands) = true := by
  unfold scrape_articles
  exact noEmptyContent_fold_run cands s (existing_urls_of s) h

/-- A concrete store with one non-empty-content entry, for the witness
below. -/
def sampleStore : Store :=
  [("k1",
    { url := "k1"
      title := "T"
      description := ""
      content := "Body"
      image_url := ""
      publish_date := "2024-01-02 03:04:05"
      author := "Unknown" })]

/-- Witness for store_no_empty_content on a concrete store with one
non-empty entry and one faulting candidate. -/
theorem store_no_empty_content_witness :
    noEmptyContent sampleStore = true ∧
    noEmptyContent (scrape_articles sampleStore
      [{ url := "https://site.test/a", nav := none }]) = true :=
  ⟨by decide, store_no_empty_content _ _ (by decide)⟩

/-! ## Claim C1: cross-run deduplication -/

def demoUrl : String := "https://news.example.com/a"

def firstRunPage : Page :=
  { title := "Big Story - Example News"
    mainContent := some "First run body text."
    bodyText := ""
    firstImageSrc := none
    timeElement := none
    authorText := none
    now := { year := 2024, month := 1, day := 2, hour := 3, minute := 4, second := 5 } }

def secondRunPage : Page :=
  { firstRunPage with mainContent := some "Second run body text." }

/-- The store after a first crawl run over the single candidate demoUrl,
starting from an empty store. -/
def firstRunStore : Store :=
  scrape_articles [] [{ url := demoUrl, nav := some firstRunPage }]

set_option maxRecDepth 1000000 in
/-- Claim C1 fails on the code (the code contradicts its own comments
"Check if the article URL has already been saved" and "Extract URLs from
existing data to avoid duplicates"): save_article stores the hash as the
record url field, so the URL set load_existing_data re-derives at the
start of the next run contains MD5 digests, never the canonical URL; the
duplicate check on the raw URL therefore fails and the second run
re-extracts the article and overwrites the stored record.  Concretely:
the hash is not the URL, the record of the first run holds the hash in its
url field, the URL is absent from the re-derived set, and a second run
over the same candidate changes the stored record. -/
theorem cross_run_dedup_broken :
    hash_url demoUrl ≠ demoUrl ∧
    (dictGet firstRunStore (hash_url demoUrl)).map (fun r => r.url) =
      some (hash_url demoUrl) ∧
    demoUrl ∉ existing_urls_of firstRunStore ∧
    dictGet (scrape_articles firstRunStore
        [{ url := demoUrl, nav := some secondRunPage }]) (hash_url demoUrl) ≠
      dictGet firstRunStore (hash_url demoUrl) := by
  refine ⟨by decide, by decide, by decide, by decide⟩

/-! ## Tab discipline of the candidate loop (Claim C5) -/

/-- The open-tab count of the rendering session and the index of the
focused window handle. -/
structure TabState where
  openTabs : Nat
  focused : Nat
deriving DecidableEq

/-- `window.open(url, ...)`: a new handle is appended; focus stays. -/
def openNewTab (ts : TabState) : TabState :=
  { ts with openTabs := ts.openTabs + 1 }

/-- `driver.switch_to.window(driver.window_handles[i])`. -/
def switchToWindow (ts : TabState) (i : Nat) : TabState :=
  { ts with focused := i }

/-- `driver.close()`: closes the focused tab. -/
def closeCurrentTab (ts : TabState) : TabState :=
  { ts with openTabs := ts.openTabs - 1 }

/-- How one iteration of the candidate loop can end. -/
inductive IterationOutcome where
  | skippedKnownUrl
  | faultBeforeOpen
  | faultAfterOpen
  | emptyContent
  | saved
deriving DecidableEq

/-- Models the tab operations one iteration of the candidate loop of
scrape_articles performs (lines 169-235): the skip path touches no tab; on
the empty-content and saved paths the article tab is opened, focused,
closed, and focus returns to handle 0; a fault before `window.open` leaves
the state alone; a fault after the article tab was opened and focused
(navigation error, extraction exception, closed-session error) reaches the
`except` handler, which only logs — no close, no switch back, and no
verification step exists before the next iteration. -/
def article_iteration_tabs (ts : TabState) : IterationOutcome → TabState
  | IterationOutcome.skippedKnownUrl => ts
  | IterationOutcome.faultBeforeOpen => ts
  | IterationOutcome.faultAfterOpen => switchToWindow (openNewTab ts) 1
  | IterationOutcome.emptyContent =>
    switchToWindow (closeCurrentTab (switchToWindow (openNewTab ts) 1)) 0
  | IterationOutcome.saved =>
    switchToWindow (closeCurrentTab (switchToWindow (openNewTab ts) 1)) 0

/-- Counterexample to claim C5: an iteration that faults after the article
tab has been opened ends with two tabs open and the article tab focused —
the exception handler does no tab cleanup — so the next iteration does not
start on a single focused listing tab. -/
theorem fault_leaves_article_tab_open :
    article_iteration_tabs { openTabs := 1, focused := 0 }
        IterationOutcome.faultAfterOpen = { openTabs := 2, focused := 1 } ∧
    article_iteration_tabs { openTabs := 1, focused := 0 }
        IterationOutcome.faultAfterOpen ≠ { openTabs := 1, focused := 0 } := by
  decide

/-- Claim C5 amended: on the skip, empty-content, and saved paths — and on
a fault raised before the article tab is opened — the iteration ends back
on a single focused listing tab; only an iteration that faults after
opening the article tab violates the invariant (no cleanup or verification
happens in the exception handler). -/
theorem tab_invariant_outside_fault (out : IterationOutcome)
    (h : out ≠ IterationOutcome.faultAfterOpen) :
    article_iteration_tabs { openTabs := 1, focused := 0 } out =
      { openTabs := 1, focused := 0 } := by
  cases out
  case skippedKnownUrl => rfl
  case faultBeforeOpen => rfl
  case faultAfterOpen => exact absurd rfl h
  case emptyContent => rfl
  case saved => rfl

/-- Witness for tab_invariant_outside_fault at the saved outcome. -/
theorem tab_invariant_outside_fault_witness :
    IterationOutcome.saved ≠ IterationOutcome.faultAfterOpen ∧
    article_iteration_tabs { openTabs := 1, focused := 0 }
        IterationOutcome.saved = { openTabs := 1, focused := 0 } :=
  ⟨by decide, tab_invariant_outside_fault IterationOutcome.saved (by decide)⟩

/-! ## The JSON level of load_existing_data (Claim C2) -/

inductive JValue where
  | null
  | bool (b : Bool)
  | num (n : Int)
  | str (s : String)
  | arr (elems : List JValue)
  | obj (fields : List (String × JValue))

/-- `existing_data.values()`: the field values of a dict; AttributeError on
every other JSON value. -/
def dictValues : JValue → Except PyError (List JValue)
  | JValue.obj fields => Except.ok (fields.map (fun kv => kv.2))
  | _ => Except.error PyError.attributeError

/-- Python `x == "url"`: among JSON values only the string "url" compares
equal. -/
def isStrUrl : JValue → Bool
  | JValue.str s => s = "url"
  | _ => false

/-- Python `"url" in article`: substring test on a str, key test on a
dict, element test on a list, TypeError on the remaining types. -/
def pyContainsUrl : JValue → Except PyError Bool
  | JValue.str s => Except.ok (containsSub s.toList "url".toList)
  | JValue.obj fields => Except.ok (fields.any (fun kv => kv.1 = "url"))
  | JValue.arr elems => Except.ok (elems.any isStrUrl)
  | _ => Except.error PyError.typeError

/-- Python `article["url"]`: dict lookup (KeyError when the key is absent),
TypeError for a string subscript on non-dict values. -/
def pyIndexUrl : JValue → Except PyError JValue
  | JValue.obj fields =>
    match fields.find? (fun kv => kv.1 = "url") with
    | some kv => Except.ok kv.2
    | none => Except.error PyError.keyError
  | _ => Except.error PyError.typeError

/-- The set comprehension `{article["url"] for article in
existing_data.values() if "url" in article}`, evaluated left to right.
The set is consumed only through membership tests, so it is kept as a
list. -/
def extractUrlSet : List JValue → Except PyError (List JValue)
  | [] => Except.ok []
  | a :: rest =>
    match pyContainsUrl a with
    | Except.error e => Except.error e
    | Except.ok true =>
      match pyIndexUrl a with
      | Except.error e => Except.error e
      | Except.ok u =>
        match extractUrlSet rest with
        | Except.error e => Except.error e
        | Except.ok urls => Except.ok (u :: urls)
    | Except.ok false => extractUrlSet rest

/-- Models scraper.load_existing_data (lines 244-258) at the JSON level.
The backing file is `none` when missing, `some none` when its contents do
not parse (json.load raises json.JSONDecodeError, which the handler
swallows, leaving the empty dict and the empty set), and `some (some v)`
when they parse to the JSON value `v`.  Only JSONDecodeError is caught:
any exception raised by `.values()` or by the set comprehension
propagates to the caller. -/
def load_existing_data (file : Option (Option JValue)) :
    Except PyError (JValue × List JValue) :=
  match file with
  | none => Except.ok (JValue.obj [], [])
  | some none => Except.ok (JValue.obj [], [])
  | some (some v) =>
    match dictValues v with
    | Except.error e => Except.error e
    | Except.ok vals =>
      match extractUrlSet vals with
      | Except.error e => Except.error e
      | Except.ok urls => Except.ok (v, urls)

/-- Counterexample to claim C2: well-formed JSON whose top level is not the
hash-keyed mapping makes load_existing_data raise instead of returning the
empty valid state.  A top-level array raises AttributeError at
`existing_data.values()`, and the spec-sanctioned
`{status, totalResults, articles: [...]}` shape raises TypeError when the
comprehension evaluates `"url" in 1` on the integer totalResults value;
neither exception is the json.JSONDecodeError the handler catches. -/
theorem load_nonmapping_raises :
    load_existing_data (some (some (JValue.arr []))) =
      Except.error PyError.attributeError ∧
    load_existing_data (some (some (JValue.obj
      [("status", JValue.str "ok"), ("totalResults", JValue.num 1),
       ("articles", JValue.arr [])]))) =
      Except.error PyError.typeError :=
  ⟨rfl, rfl⟩

/-- Claim C2 amended: load_existing_data returns the empty valid state —
empty data mapping and empty URL set — when the backing file is missing
and when its contents fail to parse as JSON (truncated or corrupt text);
well-formed JSON whose top-level shape is not a mapping of records is not
tolerated but raises (see the counterexample). -/
theorem load_missing_or_malformed_empty :
    load_existing_data none = Except.ok (JValue.obj [], []) ∧
    load_existing_data (some none) = Except.ok (JValue.obj [], []) :=
  ⟨rfl, rfl⟩

/-! ## Claim C8: publish-timestamp resolution -/

/-- Counterexample to claim C8: when no time element is found the stored
publish timestamp is datetime.now().strftime("%Y-%m-%d %H:%M:%S") — the
local wall-clock time with a space separator and no timezone designator —
which is not a string in ISO-8601 UTC form. -/
theorem publish_fallback_not_iso8601 :
    resolve_publish_date none
        { year := 2024, month := 1, day := 2, hour := 3, minute := 4, second := 5 } =
      "2024-01-02 03:04:05" ∧
    is_iso8601_utc "2024-01-02 03:04:05" = false := by
  refine ⟨by decide, by decide⟩

/-- Claim C8 amended: the publish timestamp prefers the machine-readable
datetime attribute of the time element whenever the attribute is present
and non-empty, falls back to the element visible text when the attribute
is missing or empty, and when no time element is found it is the
extraction-time current local time in the "%Y-%m-%d %H:%M:%S" format
(which is not ISO-8601 UTC form). -/
theorem publish_date_resolution :
    (∀ (el : TimeElement) (now : LocalTime) (s : String),
      el.datetimeAttr = some s → s ≠ "" →
      resolve_publish_date (some el) now = s) ∧
    (∀ (el : TimeElement) (now : LocalTime),
      el.datetimeAttr = none ∨ el.datetimeAttr = some "" →
      resolve_publish_date (some el) now = el.text) ∧
    (∀ now : LocalTime, resolve_publish_date none now = strftime_ymd_hms now) := by
  refine ⟨?_, ?_, ?_⟩
  · intro el now s hattr hne
    simp [resolve_publish_date, py_or_str, hattr, hne]
  · intro el now h
    rcases h with h | h <;> simp [resolve_publish_date, py_or_str, h]
  · intro now
    rfl

/-- Witness for publish_date_resolution: a non-empty datetime attribute
wins, a missing attribute falls back to the text, and a missing time
element yields the formatted current time. -/
theorem publish_date_resolution_witness :
    resolve_publish_date
        (some { datetimeAttr := some "2024-05-06T07:08:09Z", text := "May 6" })
        { year := 2024, month := 5, day := 6, hour := 7, minute := 8, second := 9 } =
      "2024-05-06T07:08:09Z" ∧
    resolve_publish_date (some { datetimeAttr := none, text := "May 6" })
        { year := 2024, month := 5, day := 6, hour := 7, minute := 8, second := 9 } =
      "May 6" ∧
    resolve_publish_date none
        { year := 2024, month := 5, day := 6, hour := 7, minute := 8, second := 9 } =
      strftime_ymd_hms
        { year := 2024, month := 5, day := 6, hour := 7, minute := 8, second := 9 } :=
  ⟨publish_date_resolution.1 _ _ _ rfl (by decide),
   publish_date_resolution.2.1 _ _ (Or.inl rfl),
   publish_date_resolution.2.2 _⟩
